import Mathlib

/-!
Verification of `fastkst_localtime` (src/fastkst_localtime.c, src/fastkst_localtime.h).

The C code converts a 64-bit signed epoch-seconds value into a broken-down
civil-time record (`struct tm`) under the fixed KST offset (+32400 seconds).
We embed the code shallowly:

* C `int64_t` / `time_t` arithmetic is embedded as `Int`; C's `/` and `%` on
  signed integers truncate toward zero, which is `Int.tdiv` / `Int.tmod`.
  No intermediate value of the C program can overflow 64 bits on the
  `time_t` domain (the largest intermediates are day counts, about 1.07e14,
  and `LEAPS_THRU_END_OF` of year-magnitudes about 3e11), so plain `Int` is
  an exact model of the `int64_t` computation there.
* The caller-supplied `struct tm *` is embedded as `Option Tm` (`none` =
  NULL); a call returns the C `int` result, the final contents of the
  record, and the error code stored by the call (`errno`, or for the safe
  wrapper the value written through `err_code`), `none` when no code is set.
* The three `while` loops are embedded as structural recursion on an
  explicit fuel argument.  The fuel is chosen so that it provably never
  runs out on the respective input range (the two remainder-renormalization
  loops need at most 2 iterations, theorem `splitDR_spec`; the year loop
  needs at most 6 iterations for any day count reachable from a 64-bit
  `time_t`, theorem `yearLoopS_converged`), so on the C function's actual
  domain the fuel-based functions coincide with the unbounded loops.
-/

/-! ### Constants of the source (src/fastkst_localtime.c) -/

/-- `#define SECS_PER_HOUR (60 * 60)` (line 37). -/
def SECS_PER_HOUR : Int := 60 * 60

/-- `#define SECS_PER_DAY (SECS_PER_HOUR * 24)` (line 38). -/
def SECS_PER_DAY : Int := SECS_PER_HOUR * 24

/-- `errno.h` code for "invalid argument" (Linux value 22).  Only its
identity matters to the program. -/
def EINVAL : Int := 22

/-- `errno.h` code for "value too large" (Linux value 75). -/
def EOVERFLOW : Int := 75

/-- `INT_MIN` for the 32-bit `int` of `struct tm.tm_year`. -/
def INT_MIN : Int := -2147483648

/-- `INT_MAX` for the 32-bit `int` of `struct tm.tm_year`. -/
def INT_MAX : Int := 2147483647

/-- The fixed KST offset bound in `fastkst_localtime`:
`const long int kst_offset = 3600 * 9;` (line 136). -/
def kst_offset : Int := 3600 * 9

/-- `__isleap(year)` (lines 26-27):
`((year) % 4 == 0 && ((year) % 100 != 0 || (year) % 400 == 0))`.
C `%` on signed operands truncates, hence `Int.tmod`. -/
def __isleap (year : Int) : Bool :=
  year.tmod 4 == 0 && (year.tmod 100 != 0 || year.tmod 400 == 0)

/-- `const unsigned short int __mon_yday[2][13]` (lines 29-35), the
cumulative day-of-year at which each month starts (13th entry = year
length).  Row selected by the leap flag. -/
def __mon_yday (leap : Bool) : List Int :=
  if leap then [0, 31, 60, 91, 121, 152, 182, 213, 244, 274, 305, 335, 366]
  else [0, 31, 59, 90, 120, 151, 181, 212, 243, 273, 304, 334, 365]

/-- `ip[i]`: reading the table at index `i`.  In C an index outside `0..12`
would be undefined behaviour; the model returns 0 there (the success path
only reads indices `0..12`, theorem `monthScan_bounds`). -/
def monYday (leap : Bool) (i : Int) : Int := (__mon_yday leap).getD i.toNat 0

/-- `#define DIV(a, b) ((a) / (b) - ((a) % (b) < 0))` (line 85): truncating
division corrected to floor division for a positive divisor. -/
def DIV (a b : Int) : Int := a.tdiv b - (if a.tmod b < 0 then 1 else 0)

/-- `#define LEAPS_THRU_END_OF(y) (DIV (y, 4) - DIV (y, 100) + DIV (y, 400))`
(line 86). -/
def LEAPS_THRU_END_OF (y : Int) : Int := DIV y 4 - DIV y 100 + DIV y 400

/-! ### The day/time splitter (lines 58-71)

`days = t / SECS_PER_DAY; rem = t % SECS_PER_DAY; rem += offset;` followed
by the two renormalization `while` loops.  Each loop is modelled with fuel
3; at most 2 iterations ever run when `|offset| < SECS_PER_DAY`
(theorem `splitDR_spec`). -/

/-- State of `while (rem < 0) { rem += SECS_PER_DAY; --days; }` (lines
62-66) after at most `fuel` iterations. -/
def normNegS : Nat → Int × Int → Int × Int
  | 0, p => p
  | n + 1, (days, rem) =>
    if rem < 0 then normNegS n (days - 1, rem + SECS_PER_DAY) else (days, rem)

/-- Number of iterations the loop of `normNegS` executes. -/
def normNegC : Nat → Int × Int → Nat
  | 0, _ => 0
  | n + 1, (days, rem) =>
    if rem < 0 then normNegC n (days - 1, rem + SECS_PER_DAY) + 1 else 0

/-- State of `while (rem >= SECS_PER_DAY) { rem -= SECS_PER_DAY; ++days; }`
(lines 67-71) after at most `fuel` iterations. -/
def normPosS : Nat → Int × Int → Int × Int
  | 0, p => p
  | n + 1, (days, rem) =>
    if rem ≥ SECS_PER_DAY then normPosS n (days + 1, rem - SECS_PER_DAY) else (days, rem)

/-- Number of iterations the loop of `normPosS` executes. -/
def normPosC : Nat → Int × Int → Nat
  | 0, _ => 0
  | n + 1, (days, rem) =>
    if rem ≥ SECS_PER_DAY then normPosC n (days + 1, rem - SECS_PER_DAY) + 1 else 0

/-- Lines 58-71 as one function: the `(days, rem)` pair after the initial
truncating split, the offset addition, and both renormalization loops,
together with the iteration count of each loop. -/
def splitDR (t offset : Int) : (Int × Int) × Nat × Nat :=
  let p0 : Int × Int := (t.tdiv SECS_PER_DAY, t.tmod SECS_PER_DAY + offset)
  let p1 := normNegS 3 p0
  (normPosS 3 p1, normNegC 3 p0, normPosC 3 p1)

/-- The day count entering the weekday and year computations. -/
def splitDays (t offset : Int) : Int := (splitDR t offset).1.1

/-- The within-day remainder, `0 ≤ rem < 86400` (theorem `splitDR_spec`). -/
def splitRem (t offset : Int) : Int := (splitDR t offset).1.2

/-- `tp->tm_hour = (int)(rem / SECS_PER_HOUR);` (line 73). -/
def tmHourOf (t offset : Int) : Int := (splitRem t offset).tdiv SECS_PER_HOUR

/-- `rem %= SECS_PER_HOUR; tp->tm_min = (int)(rem / 60);` (lines 74-75). -/
def tmMinOf (t offset : Int) : Int := ((splitRem t offset).tmod SECS_PER_HOUR).tdiv 60

/-- `tp->tm_sec = (int)(rem % 60);` (line 76, `rem` already reduced mod 3600). -/
def tmSecOf (t offset : Int) : Int := ((splitRem t offset).tmod SECS_PER_HOUR).tmod 60

/-- `tp->tm_wday = (int)((4 + days) % 7); if (tp->tm_wday < 0) tp->tm_wday += 7;`
(lines 79-81). -/
def tmWdayOf (t offset : Int) : Int :=
  let w := (4 + splitDays t offset).tmod 7
  if w < 0 then w + 7 else w

/-! ### The year-resolver loop (lines 88-98) -/

/-- The condition of `while (days < 0 || days >= (__isleap (y) ? 366 : 365))`. -/
def loopCond (y days : Int) : Prop :=
  days < 0 ∨ days ≥ (if __isleap y then 366 else 365)

instance (y days : Int) : Decidable (loopCond y days) := by
  unfold loopCond; infer_instance

/-- One execution of the loop body (lines 90-97):
`yg = y + days / 365 - (days % 365 < 0);`
`days -= ((yg - y) * 365 + LEAPS_THRU_END_OF (yg - 1) - LEAPS_THRU_END_OF (y - 1));`
`y = yg;` -/
def yearStep (y days : Int) : Int × Int :=
  let yg := y + (days.tdiv 365 - (if days.tmod 365 < 0 then 1 else 0))
  (yg, days - ((yg - y) * 365 + LEAPS_THRU_END_OF (yg - 1) - LEAPS_THRU_END_OF (y - 1)))

/-- The `(y, days)` state after at most `fuel` iterations of the loop. -/
def yearLoopS : Nat → Int → Int → Int × Int
  | 0, y, days => (y, days)
  | n + 1, y, days =>
    if loopCond y days then yearLoopS n (yearStep y days).1 (yearStep y days).2
    else (y, days)

/-- Number of iterations the year loop executes within the given fuel. -/
def yearLoopC : Nat → Int → Int → Nat
  | 0, _, _ => 0
  | n + 1, y, days =>
    if loopCond y days then yearLoopC n (yearStep y days).1 (yearStep y days).2 + 1
    else 0

/-- The loop's final state for a given offset; `y = 1970;` (line 83) is the
initial trial year.  Fuel 20 provably never runs out for day counts
reachable from a 64-bit `time_t` (theorem `yearLoopS_converged`). -/
def yearState (t offset : Int) : Int × Int := yearLoopS 20 1970 (splitDays t offset)

/-- The year the loop resolves for input `t` under the fixed KST offset. -/
def resolvedYear (t : Int) : Int := (yearState t kst_offset).1

/-- The loop's exit condition holds at state `p`: the remaining day count
is a valid zero-based day-of-year for the resolved year. -/
def yearConverged (p : Int × Int) : Prop := ¬ loopCond p.1 p.2

/-! ### The backward month scan (lines 111-116) -/

/-- `for (y = 11; days < (long int) ip[y]; --y) continue;` starting from
index `i`.  If the scan would step below index 0 (possible in C only when
`days < ip[0] = 0`, i.e. `days < 0`, and undefined behaviour there), the
model returns `-1`. -/
def monthScanAux (leap : Bool) (days : Int) : Nat → Int
  | 0 => if days < monYday leap 0 then -1 else 0
  | n + 1 => if days < monYday leap ((n : Int) + 1) then monthScanAux leap days n
             else ((n : Int) + 1)

/-- The month index the scan stops at (the C loop starts at 11). -/
def monthScan (leap : Bool) (days : Int) : Int := monthScanAux leap days 11

/-! ### The output record

`struct tm`, glibc layout (tm_gmtoff/tm_zone present); `tm_zone : String`
models the `const char *` label, with `""` for NULL. -/

structure Tm where
  tm_sec : Int
  tm_min : Int
  tm_hour : Int
  tm_mday : Int
  tm_mon : Int
  tm_year : Int
  tm_wday : Int
  tm_yday : Int
  tm_isdst : Int
  tm_gmtoff : Int
  tm_zone : String
deriving DecidableEq, Repr

/-- The all-zero record produced by `memset(tp, 0, sizeof(struct tm))`. -/
def tmZero : Tm := ⟨0, 0, 0, 0, 0, 0, 0, 0, 0, 0, ""⟩

/-! ### The conversion functions -/

/-- `int __offtime64(time_t t, long int offset, struct tm *tp)`
(lines 47-119).  Returns the C result (1 success, 0 fail), the final
record contents, and the `errno` value set (if any).  The field-write
order of the source is preserved: `tm_hour`, `tm_min`, `tm_sec`,
`tm_wday` are stored before the `tm_year` range check (lines 73-81),
`tm_year`, `tm_yday`, `tm_mon`, `tm_mday` only after it succeeds
(lines 108-116). -/
def __offtime64 (t offset : Int) : Option Tm → Int × Option Tm × Option Int
  | none => (0, none, some EINVAL)
  | some tp0 =>
    let tp3 : Tm := { tp0 with
      tm_hour := tmHourOf t offset
      tm_min := tmMinOf t offset
      tm_sec := tmSecOf t offset
      tm_wday := tmWdayOf t offset }
    let y := (yearState t offset).1
    let days := (yearState t offset).2
    if y < INT_MIN + 1900 ∨ y > INT_MAX + 1900 then
      (0, some tp3, some EOVERFLOW)
    else
      let tp4 : Tm := { tp3 with tm_year := y - 1900, tm_yday := days }
      let m := monthScan (__isleap y) days
      (1, some { tp4 with tm_mon := m, tm_mday := days - monYday (__isleap y) m + 1 }, none)

/-- `int fastkst_localtime(time_t t, struct tm *tp)` (lines 133-154):
NULL check, delegate to `__offtime64` with the fixed offset, and on
success stamp `tm_gmtoff`, `tm_zone`, `tm_isdst`. -/
def fastkst_localtime (t : Int) : Option Tm → Int × Option Tm × Option Int
  | none => (0, none, some EINVAL)
  | some tp0 =>
    let r := __offtime64 t kst_offset (some tp0)
    if r.1 = 1 then
      (r.1, r.2.1.map fun tp1 =>
        { tp1 with tm_gmtoff := kst_offset, tm_zone := "KST", tm_isdst := 0 }, r.2.2)
    else r

/-- `int fastkst_localtime_safe(time_t t, struct tm *tp, int *err_code)`
(lines 163-184).  `hasErrPtr` models whether `err_code` is non-NULL; the
third component is the value written through `err_code` (`none` if nothing
is written).  The record is zeroed (`memset`) before the inner call. -/
def fastkst_localtime_safe (t : Int) (tp? : Option Tm) (hasErrPtr : Bool) :
    Int × Option Tm × Option Int :=
  match tp? with
  | none => (0, none, if hasErrPtr then some EINVAL else none)
  | some _ =>
    let r := fastkst_localtime t (some tmZero)
    if r.1 = 0 then (r.1, r.2.1, if hasErrPtr then r.2.2 else none)
    else (r.1, r.2.1, none)

/-! ### Specification-side definitions (from the claims, not the source)

The round-trip claim recombines the record's fields into epoch seconds
"under the proleptic Gregorian calendar".  These definitions spell that
calendar out independently: month lengths, floor-division leap counting. -/

/-- Proleptic Gregorian leap-year rule, written with Euclidean `%`
(sign-independent). -/
def isLeapG (y : Int) : Bool := y % 4 == 0 && (y % 100 != 0 || y % 400 == 0)

/-- Month lengths of the proleptic Gregorian calendar. -/
def monthLengthsG (leap : Bool) : List Int :=
  [31, if leap then 29 else 28, 31, 30, 31, 30, 31, 31, 30, 31, 30, 31]

/-- Days in the year strictly before month `m` (0-based). -/
def daysBeforeMonthG (leap : Bool) (m : Int) : Int :=
  ((monthLengthsG leap).take m.toNat).sum

/-- Number of proleptic Gregorian leap years in `1..y` counted by the
floor-division formula `⌊y/4⌋ - ⌊y/100⌋ + ⌊y/400⌋` (`Int.fdiv` floors). -/
def leapCountFloor (y : Int) : Int := y.fdiv 4 - y.fdiv 100 + y.fdiv 400

/-- Day number of civil date `(year, mon 0-based, mday 1-based)` relative
to 1970-01-01 under the proleptic Gregorian calendar. -/
def daysFromCivil (year mon mday : Int) : Int :=
  365 * (year - 1970) + (leapCountFloor (year - 1) - leapCountFloor 1969)
    + daysBeforeMonthG (isLeapG year) mon + (mday - 1)

/-- Epoch seconds reconstructed from a record's civil fields and the fixed
+32400 offset, exactly as the round-trip claim prescribes. -/
def recombineSecs (tm : Tm) : Int :=
  86400 * daysFromCivil (tm.tm_year + 1900) tm.tm_mon tm.tm_mday
    + 3600 * tm.tm_hour + 60 * tm.tm_min + tm.tm_sec - 32400

/-! ### Bridges between C division (`Int.tdiv`/`Int.tmod`) and Euclidean
division.  `omega` understands `/` and `%` on `Int` (Euclidean), so every
arithmetic proof first moves to that form. -/

theorem SECS_PER_DAY_eq : SECS_PER_DAY = 86400 := rfl

theorem SECS_PER_HOUR_eq : SECS_PER_HOUR = 3600 := rfl

theorem tmod_neg_left (a b : Int) : (-a).tmod b = -(a.tmod b) := by
  rw [Int.tmod_def, Int.tmod_def, Int.neg_tdiv]; ring

/-- Complete characterization of C's truncating division by a positive
divisor: quotient-remainder identity, remainder magnitude, and the
remainder taking the dividend's sign. -/
theorem tdivmod_char (a : Int) {b : Int} (hb : 0 < b) :
    b * a.tdiv b + a.tmod b = a ∧ a.tmod b < b ∧ -b < a.tmod b ∧
    (0 ≤ a → 0 ≤ a.tmod b) ∧ (a < 0 → a.tmod b ≤ 0) := by
  have hsum : b * a.tdiv b + a.tmod b = a := by
    have := Int.tmod_add_tdiv a b; omega
  have hlt : a.tmod b < b := Int.tmod_lt_of_pos a hb
  have hneg : a < 0 → a.tmod b ≤ 0 := by
    intro hx
    have h1 : a.tmod b = -((-a).tmod b) := by
      have := tmod_neg_left (-a) b; simp at this; omega
    have h2 : 0 ≤ (-a).tmod b := Int.tmod_nonneg b (by omega)
    omega
  refine ⟨hsum, hlt, ?_, fun h => Int.tmod_nonneg b h, hneg⟩
  rcases le_or_lt 0 a with h | h
  · have := Int.tmod_nonneg b h; omega
  · have h1 : a.tmod b = -((-a).tmod b) := by
      have := tmod_neg_left (-a) b; simp at this; omega
    have h2 : (-a).tmod b < b := Int.tmod_lt_of_pos (-a) hb
    omega

/-- The `DIV` macro computes floor division, i.e. Euclidean division for a
positive divisor. -/
theorem DIV_eq_ediv (a : Int) {b : Int} (hb : 0 < b) : DIV a b = a / b := by
  obtain ⟨h1, h2, h3, h4, h5⟩ := tdivmod_char a hb
  unfold DIV
  split
  case isTrue h =>
    have hu : a / b = a.tdiv b - 1 ∧ a % b = a.tmod b + b :=
      (Int.ediv_emod_unique hb).mpr ⟨by linear_combination h1, by omega, by omega⟩
    omega
  case isFalse h =>
    have hu : a / b = a.tdiv b ∧ a % b = a.tmod b :=
      (Int.ediv_emod_unique hb).mpr ⟨by linear_combination h1, by omega, by omega⟩
    omega

theorem LEAPS_eq (y : Int) : LEAPS_THRU_END_OF y = y / 4 - y / 100 + y / 400 := by
  unfold LEAPS_THRU_END_OF
  rw [@DIV_eq_ediv y 4 (by norm_num), @DIV_eq_ediv y 100 (by norm_num),
    @DIV_eq_ediv y 400 (by norm_num)]

theorem leapCountFloor_eq (y : Int) : leapCountFloor y = LEAPS_THRU_END_OF y := by
  unfold leapCountFloor
  rw [LEAPS_eq, Int.fdiv_eq_ediv _ (by norm_num), Int.fdiv_eq_ediv _ (by norm_num),
    Int.fdiv_eq_ediv _ (by norm_num)]

theorem isleap_iff (y : Int) :
    __isleap y = true ↔ (y % 4 = 0 ∧ (y % 100 ≠ 0 ∨ y % 400 = 0)) := by
  obtain ⟨a1, a2, a3, a4, a5⟩ := tdivmod_char y (b := 4) (by norm_num)
  obtain ⟨b1, b2, b3, b4, b5⟩ := tdivmod_char y (b := 100) (by norm_num)
  obtain ⟨c1, c2, c3, c4, c5⟩ := tdivmod_char y (b := 400) (by norm_num)
  simp only [__isleap, Bool.and_eq_true, Bool.or_eq_true, beq_iff_eq, bne_iff_ne]
  omega

theorem isLeapG_iff (y : Int) :
    isLeapG y = true ↔ (y % 4 = 0 ∧ (y % 100 ≠ 0 ∨ y % 400 = 0)) := by
  simp only [isLeapG, Bool.and_eq_true, Bool.or_eq_true, beq_iff_eq, bne_iff_ne]

/-- The spec-side leap predicate coincides with the source's `__isleap`. -/
theorem isLeapG_eq (y : Int) : isLeapG y = __isleap y := by
  have h1 := isleap_iff y
  have h2 := isLeapG_iff y
  cases hb : __isleap y <;> cases hg : isLeapG y <;> simp_all

/-! ### The day/time splitter: correctness of the renormalization loops -/

theorem normNegS_spec (d r : Int) (hlo : -172800 < r) (hhi : r < 172800) :
    86400 * (normNegS 3 (d, r)).1 + (normNegS 3 (d, r)).2 = 86400 * d + r ∧
    0 ≤ (normNegS 3 (d, r)).2 ∧ (normNegS 3 (d, r)).2 < 172800 ∧
    normNegC 3 (d, r) ≤ 2 := by
  simp only [normNegS, normNegC, SECS_PER_DAY_eq]
  split_ifs <;> refine ⟨by omega, by omega, by omega, by omega⟩

theorem normPosS_spec (d r : Int) (hlo : 0 ≤ r) (hhi : r < 172800) :
    86400 * (normPosS 3 (d, r)).1 + (normPosS 3 (d, r)).2 = 86400 * d + r ∧
    0 ≤ (normPosS 3 (d, r)).2 ∧ (normPosS 3 (d, r)).2 < 86400 ∧
    normPosC 3 (d, r) ≤ 2 := by
  simp only [normPosS, normPosC, SECS_PER_DAY_eq]
  split_ifs <;> refine ⟨by omega, by omega, by omega, by omega⟩

/-- Correctness of lines 58-71 for any offset smaller than one day: the
split is exact, the remainder is normalized into `[0, 86400)`, and each
loop runs at most twice. -/
theorem splitDR_spec (t offset : Int) (holo : -86400 < offset) (hohi : offset < 86400) :
    86400 * splitDays t offset + splitRem t offset = t + offset ∧
    0 ≤ splitRem t offset ∧ splitRem t offset < 86400 ∧
    (splitDR t offset).2.1 ≤ 2 ∧ (splitDR t offset).2.2 ≤ 2 := by
  obtain ⟨h1, h2, h3, h4, h5⟩ := tdivmod_char t (b := 86400) (by norm_num)
  obtain ⟨n1, n2, n3, n4⟩ :=
    normNegS_spec (t.tdiv 86400) (t.tmod 86400 + offset) (by omega) (by omega)
  obtain ⟨p1, p2, p3, p4⟩ :=
    normPosS_spec (normNegS 3 (t.tdiv 86400, t.tmod 86400 + offset)).1
      (normNegS 3 (t.tdiv 86400, t.tmod 86400 + offset)).2 n2 n3
  simp only [Prod.mk.eta] at p1 p2 p3 p4
  simp only [splitDays, splitRem, splitDR, SECS_PER_DAY_eq] at *
  refine ⟨?_, ?_, ?_, ?_, ?_⟩ <;> omega

/-- The final `(days, rem)` pair is the Euclidean division of `t + offset`
by 86400. -/
theorem splitDR_eq_ediv (t offset : Int) (holo : -86400 < offset) (hohi : offset < 86400) :
    splitDays t offset = (t + offset) / 86400 ∧ splitRem t offset = (t + offset) % 86400 := by
  obtain ⟨h1, h2, h3, _, _⟩ := splitDR_spec t offset holo hohi
  have hu : (t + offset) / 86400 = splitDays t offset ∧
      (t + offset) % 86400 = splitRem t offset :=
    (Int.ediv_emod_unique (by norm_num)).mpr ⟨by omega, h2, h3⟩
  omega

/-- Hour/minute/second recombine exactly to the within-day remainder. -/
theorem hms_recombine (t offset : Int) (holo : -86400 < offset) (hohi : offset < 86400) :
    3600 * tmHourOf t offset + 60 * tmMinOf t offset + tmSecOf t offset
      = splitRem t offset := by
  obtain ⟨_, h2, h3, _, _⟩ := splitDR_spec t offset holo hohi
  obtain ⟨a1, a2, a3, a4, a5⟩ := tdivmod_char (splitRem t offset) (b := 3600) (by norm_num)
  obtain ⟨b1, b2, b3, b4, b5⟩ :=
    tdivmod_char ((splitRem t offset).tmod 3600) (b := 60) (by norm_num)
  simp only [tmHourOf, tmMinOf, tmSecOf, SECS_PER_HOUR_eq]
  omega

/-- `(rem % 3600) % 60 = rem % 60` for C's truncating `%` (any sign). -/
theorem tmod3600_tmod60 (a : Int) : (a.tmod 3600).tmod 60 = a.tmod 60 := by
  obtain ⟨a1, a2, a3, a4, a5⟩ := tdivmod_char a (b := 3600) (by norm_num)
  obtain ⟨b1, b2, b3, b4, b5⟩ := tdivmod_char (a.tmod 3600) (b := 60) (by norm_num)
  obtain ⟨c1, c2, c3, c4, c5⟩ := tdivmod_char a (b := 60) (by norm_num)
  rcases le_or_lt 0 a with h | h <;> omega

/-! ### The year-resolver loop: invariant, convergence, iteration bound -/

/-- Rewriting the loop condition into pure Euclidean arithmetic. -/
theorem loopCond_iff (y d : Int) :
    loopCond y d ↔
      (d < 0 ∨ 366 ≤ d ∨ (365 ≤ d ∧ ¬(y % 4 = 0 ∧ (y % 100 ≠ 0 ∨ y % 400 = 0)))) := by
  unfold loopCond
  by_cases h : __isleap y = true
  · have hp := (isleap_iff y).mp h
    rw [if_pos h]; omega
  · have hp : ¬(y % 4 = 0 ∧ (y % 100 ≠ 0 ∨ y % 400 = 0)) := fun hq => h ((isleap_iff y).mpr hq)
    rw [if_neg h]; omega

/-- One loop iteration preserves the absolute position
`365 * y + LEAPS_THRU_END_OF (y - 1) + days` (day number of the instant,
counted from year 0): the body subtracts from `days` exactly the number of
days between Jan 1 of `y` and Jan 1 of `yg`. -/
theorem yearStep_anchor (y d : Int) :
    365 * (yearStep y d).1 + LEAPS_THRU_END_OF ((yearStep y d).1 - 1) + (yearStep y d).2
      = 365 * y + LEAPS_THRU_END_OF (y - 1) + d := by
  simp only [yearStep]
  ring

theorem yearLoopS_anchor : ∀ (n : Nat) (y d : Int),
    365 * (yearLoopS n y d).1 + LEAPS_THRU_END_OF ((yearLoopS n y d).1 - 1)
        + (yearLoopS n y d).2
      = 365 * y + LEAPS_THRU_END_OF (y - 1) + d := by
  intro n
  induction n with
  | zero => intro y d; rfl
  | succ n ih =>
    intro y d
    by_cases hc : loopCond y d
    · rw [show yearLoopS (n + 1) y d = yearLoopS n (yearStep y d).1 (yearStep y d).2 by
        simp only [yearLoopS, if_pos hc], ih]
      exact yearStep_anchor y d
    · rw [show yearLoopS (n + 1) y d = (y, d) by simp only [yearLoopS, if_neg hc]]


/-- The two loop outputs in Euclidean form: the guessed year is
`y + ⌊days/365⌋`, and the day adjustment leaves
`days % 365` minus the leap-day correction between the two Jan-1 anchors. -/
theorem yearStep_char (y d : Int) :
    (yearStep y d).1 = y + d / 365 ∧
    (yearStep y d).2 = d % 365 -
      (LEAPS_THRU_END_OF (y - 1 + d / 365) - LEAPS_THRU_END_OF (y - 1)) := by
  have hg : d.tdiv 365 - (if d.tmod 365 < 0 then 1 else 0) = d / 365 :=
    @DIV_eq_ediv d 365 (by norm_num)
  refine ⟨by simp only [yearStep, hg], ?_⟩
  simp only [yearStep, hg]
  rw [show y + d / 365 - 1 = y - 1 + d / 365 from by ring]
  omega

/-- Crossing one year boundary changes the leap count by the year's leap
bit. -/
theorem LEAPS_step (a b : Int) (hab : a = b + 1) :
    LEAPS_THRU_END_OF a - LEAPS_THRU_END_OF b =
      (if a % 4 = 0 ∧ (a % 100 ≠ 0 ∨ a % 400 = 0) then 1 else 0) := by
  subst hab
  rw [LEAPS_eq (b + 1), LEAPS_eq b]
  split_ifs <;> omega

/-- Leap-count difference over a span of `q` years is `97q/400` up to a
constant. -/
theorem LEAPS_delta (a q : Int) :
    97 * q - 1095 ≤ 400 * (LEAPS_THRU_END_OF (a + q) - LEAPS_THRU_END_OF a) ∧
    400 * (LEAPS_THRU_END_OF (a + q) - LEAPS_THRU_END_OF a) ≤ 97 * q + 1095 := by
  rw [LEAPS_eq (a + q), LEAPS_eq a]
  omega

/-- One iteration contracts the day count by a factor of about 1/1390 (the
365-day guess is exact up to the leap corrections, which are at most about
a quarter of the guessed year span). -/
theorem yearStep_bound (y d : Int) :
    (yearStep y d).2.natAbs ≤ 368 + d.natAbs / 1390 := by
  rw [(yearStep_char y d).2]
  have hd := LEAPS_delta (y - 1) (d / 365)
  omega

/-- A day count that is a valid day-of-year never re-enters the loop. -/
theorem loopCond_excluded (y d : Int) (h0 : 0 ≤ d) (h1 : d < 365) :
    ¬ loopCond y d := by
  unfold loopCond
  rintro (h | h)
  · omega
  · revert h
    split_ifs <;> omega

/-- From a day count of magnitude at most 396 on which the loop runs, one
iteration lands in `[0, 366]`. -/
theorem one_step_small (y d : Int) (hb : d.natAbs ≤ 396) (hc1 : loopCond y d) :
    0 ≤ (yearStep y d).2 ∧ (yearStep y d).2 ≤ 366 := by
  rw [loopCond_iff] at hc1
  rw [(yearStep_char y d).2]
  have hq : d / 365 = -2 ∨ d / 365 = -1 ∨ d / 365 = 0 ∨ d / 365 = 1 := by omega
  have s0 := LEAPS_step y (y - 1) (by ring)
  have s1 := LEAPS_step (y - 1) (y - 2) (by ring)
  have s2 := LEAPS_step (y - 2) (y - 3) (by ring)
  rcases hq with hq | hq | hq | hq <;> rw [hq]
  · rw [show y - 1 + (-2 : Int) = y - 3 from by ring]
    split_ifs at s1 s2 <;> omega
  · rw [show y - 1 + (-1 : Int) = y - 2 from by ring]
    split_ifs at s1 <;> omega
  · rw [show y - 1 + (0 : Int) = y - 1 from by ring]
    omega
  · rw [show y - 1 + (1 : Int) = y from by ring]
    split_ifs at s0 <;> omega

/-- From a day count in `[0, 366]` on which the loop still runs (365 in a
common year, or 366), one more iteration lands in `[0, 1]` and exits. -/
theorem step_from_yearend (y d : Int) (h0 : 0 ≤ d) (h1 : d ≤ 366)
    (hc : loopCond y d) :
    ¬ loopCond (yearStep y d).1 (yearStep y d).2 := by
  have h2 : 0 ≤ (yearStep y d).2 ∧ (yearStep y d).2 ≤ 1 := by
    rw [loopCond_iff] at hc
    rw [(yearStep_char y d).2]
    have hq : d / 365 = 0 ∨ d / 365 = 1 := by omega
    have s0 := LEAPS_step y (y - 1) (by ring)
    rcases hq with hq | hq <;> rw [hq]
    · rw [show y - 1 + (0 : Int) = y - 1 from by ring]
      omega
    · rw [show y - 1 + (1 : Int) = y from by ring]
      split_ifs at s0 <;> omega
  exact loopCond_excluded _ _ h2.1 (by omega)

theorem yearLoopS_succ_pos {y d : Int} (h : loopCond y d) (n : Nat) :
    yearLoopS (n + 1) y d = yearLoopS n (yearStep y d).1 (yearStep y d).2 := by
  simp only [yearLoopS, if_pos h]

theorem yearLoopS_stop {y d : Int} (h : ¬ loopCond y d) : ∀ n, yearLoopS n y d = (y, d)
  | 0 => rfl
  | n + 1 => by simp only [yearLoopS, if_neg h]

theorem yearLoopC_succ_pos {y d : Int} (h : loopCond y d) (n : Nat) :
    yearLoopC (n + 1) y d = yearLoopC n (yearStep y d).1 (yearStep y d).2 + 1 := by
  simp only [yearLoopC, if_pos h]

theorem yearLoopC_stop {y d : Int} (h : ¬ loopCond y d) : ∀ n, yearLoopC n y d = 0
  | 0 => rfl
  | n + 1 => by simp only [yearLoopC, if_neg h]

theorem yearLoopC_le : ∀ (n : Nat) (y d : Int), yearLoopC n y d ≤ n := by
  intro n
  induction n with
  | zero => intro y d; exact Nat.le_refl 0
  | succ n ih =>
    intro y d
    by_cases hc : loopCond y d
    · rw [yearLoopC_succ_pos hc]
      exact Nat.succ_le_succ (ih _ _)
    · rw [yearLoopC_stop hc]
      exact Nat.zero_le _

/-- Extra fuel after convergence does not change the state. -/
theorem yearLoopS_add (m : Nat) : ∀ (n : Nat) (y d : Int),
    yearConverged (yearLoopS n y d) → yearLoopS (n + m) y d = yearLoopS n y d := by
  intro n
  induction n with
  | zero =>
    intro y d h
    have h0 : ¬ loopCond y d := h
    rw [Nat.zero_add]
    exact yearLoopS_stop h0 m
  | succ n ih =>
    intro y d h
    by_cases hc : loopCond y d
    · rw [Nat.succ_add, yearLoopS_succ_pos hc, yearLoopS_succ_pos hc]
      exact ih _ _ (by rwa [yearLoopS_succ_pos hc] at h)
    · rw [yearLoopS_stop hc, yearLoopS_stop hc]

/-- Extra fuel after convergence does not change the iteration count. -/
theorem yearLoopC_add (m : Nat) : ∀ (n : Nat) (y d : Int),
    yearConverged (yearLoopS n y d) → yearLoopC (n + m) y d = yearLoopC n y d := by
  intro n
  induction n with
  | zero =>
    intro y d h
    have h0 : ¬ loopCond y d := h
    rw [Nat.zero_add, yearLoopC_stop h0 m]
    rfl
  | succ n ih =>
    intro y d h
    by_cases hc : loopCond y d
    · rw [Nat.succ_add, yearLoopC_succ_pos hc, yearLoopC_succ_pos hc]
      rw [ih _ _ (by rwa [yearLoopS_succ_pos hc] at h)]
    · rw [yearLoopC_stop hc, yearLoopC_stop hc]

/-- Day counts of magnitude at most 396 converge within 2 iterations. -/
theorem done_396 (y d : Int) (hb : d.natAbs ≤ 396) :
    yearConverged (yearLoopS 2 y d) := by
  by_cases hc1 : loopCond y d
  · rw [show (2 : Nat) = 1 + 1 from rfl, yearLoopS_succ_pos hc1]
    by_cases hc2 : loopCond (yearStep y d).1 (yearStep y d).2
    · rw [show (1 : Nat) = 0 + 1 from rfl, yearLoopS_succ_pos hc2]
      have h1 := one_step_small y d hb hc1
      exact step_from_yearend _ _ h1.1 h1.2 hc2
    · rw [yearLoopS_stop hc2]
      exact hc2
  · unfold yearConverged
    rw [yearLoopS_stop hc1]
    exact hc1

theorem done_40300 (y d : Int) (hb : d.natAbs ≤ 40300) :
    yearConverged (yearLoopS 3 y d) := by
  by_cases hc : loopCond y d
  · rw [show (3 : Nat) = 2 + 1 from rfl, yearLoopS_succ_pos hc]
    refine done_396 _ _ ?_
    have := yearStep_bound y d
    omega
  · unfold yearConverged
    rw [yearLoopS_stop hc]
    exact hc

theorem done_55400000 (y d : Int) (hb : d.natAbs ≤ 55400000) :
    yearConverged (yearLoopS 4 y d) := by
  by_cases hc : loopCond y d
  · rw [show (4 : Nat) = 3 + 1 from rfl, yearLoopS_succ_pos hc]
    refine done_40300 _ _ ?_
    have := yearStep_bound y d
    omega
  · unfold yearConverged
    rw [yearLoopS_stop hc]
    exact hc

theorem done_77e9 (y d : Int) (hb : d.natAbs ≤ 77000000000) :
    yearConverged (yearLoopS 5 y d) := by
  by_cases hc : loopCond y d
  · rw [show (5 : Nat) = 4 + 1 from rfl, yearLoopS_succ_pos hc]
    refine done_55400000 _ _ ?_
    have := yearStep_bound y d
    omega
  · unfold yearConverged
    rw [yearLoopS_stop hc]
    exact hc

theorem done_107e12 (y d : Int) (hb : d.natAbs ≤ 107000000000000) :
    yearConverged (yearLoopS 6 y d) := by
  by_cases hc : loopCond y d
  · rw [show (6 : Nat) = 5 + 1 from rfl, yearLoopS_succ_pos hc]
    refine done_77e9 _ _ ?_
    have := yearStep_bound y d
    omega
  · unfold yearConverged
    rw [yearLoopS_stop hc]
    exact hc

/-- Master convergence theorem: for any day count reachable from a 64-bit
`time_t` (magnitude at most about 1.068e14), the loop at fuel 20 has
converged, its state is already reached at fuel 6, and it executed at most
6 iterations. -/
theorem yearLoopS_converged (y d : Int) (hb : d.natAbs ≤ 107000000000000) :
    yearConverged (yearLoopS 20 y d) ∧ yearLoopS 20 y d = yearLoopS 6 y d ∧
    yearLoopC 20 y d ≤ 6 := by
  have h6 := done_107e12 y d hb
  have he : yearLoopS (6 + 14) y d = yearLoopS 6 y d := yearLoopS_add 14 6 y d h6
  have hcc : yearLoopC (6 + 14) y d = yearLoopC 6 y d := yearLoopC_add 14 6 y d h6
  have hn : (6 + 14 : Nat) = 20 := rfl
  rw [hn] at he hcc
  refine ⟨by rw [he]; exact h6, he, by rw [hcc]; exact yearLoopC_le 6 y d⟩

/-- A converged state carries a valid zero-based day-of-year. -/
theorem converged_bounds {p : Int × Int} (h : yearConverged p) :
    0 ≤ p.2 ∧ p.2 < (if __isleap p.1 then 366 else 365) := by
  unfold yearConverged loopCond at h
  rw [not_or] at h
  exact ⟨by omega, by omega⟩

/-! ### The backward month scan: safety and correctness -/

set_option maxRecDepth 4000 in
theorem monthScan_spec_fin : ∀ leap : Bool, ∀ n : Fin 366,
    (0 ≤ monthScan leap ((n : Nat) : Int) ∧ monthScan leap ((n : Nat) : Int) ≤ 11 ∧
      monYday leap (monthScan leap ((n : Nat) : Int)) ≤ ((n : Nat) : Int)) ∧
    ((leap = true ∨ (n : Nat) < 365) →
      ((n : Nat) : Int) - monYday leap (monthScan leap ((n : Nat) : Int)) + 1 ≤ 31 ∧
      ((n : Nat) : Int) < monYday leap (monthScan leap ((n : Nat) : Int) + 1)) := by
  decide

/-- Safety of the scan on any day-of-year below 366: the index stays in
`0..11` (never walks past entry 0, whose value 0 is `≤ days`) and the
day-of-month is at least 1. -/
theorem monthScan_safe (leap : Bool) (d : Int) (h0 : 0 ≤ d) (h1 : d < 366) :
    0 ≤ monthScan leap d ∧ monthScan leap d ≤ 11 ∧
    monYday leap (monthScan leap d) ≤ d := by
  have hn : d.toNat < 366 := by omega
  have h : (0 ≤ monthScan leap ((d.toNat : Nat) : Int) ∧
      monthScan leap ((d.toNat : Nat) : Int) ≤ 11 ∧
      monYday leap (monthScan leap ((d.toNat : Nat) : Int)) ≤ ((d.toNat : Nat) : Int)) :=
    (monthScan_spec_fin leap ⟨d.toNat, hn⟩).1
  rwa [Int.toNat_of_nonneg h0] at h

/-- On the day-of-year range the year resolver actually produces (strictly
below the resolved year's length), the scan also yields a day-of-month of
at most 31 and the scanned month contains the day. -/
theorem monthScan_bounds (leap : Bool) (d : Int) (h0 : 0 ≤ d)
    (h1 : d < (if leap then (366 : Int) else 365)) :
    0 ≤ monthScan leap d ∧ monthScan leap d ≤ 11 ∧
    monYday leap (monthScan leap d) ≤ d ∧
    d - monYday leap (monthScan leap d) + 1 ≤ 31 ∧
    d < monYday leap (monthScan leap d + 1) := by
  have h366 : d < 366 := by split at h1 <;> omega
  have hn : d.toNat < 366 := by omega
  have hside : leap = true ∨ (d.toNat : Nat) < 365 := by
    cases leap
    · right; simp only [if_neg (by simp : ¬ (false = true))] at h1; omega
    · left; rfl
  have h := monthScan_spec_fin leap ⟨d.toNat, hn⟩
  have ha : (0 ≤ monthScan leap ((d.toNat : Nat) : Int) ∧
      monthScan leap ((d.toNat : Nat) : Int) ≤ 11 ∧
      monYday leap (monthScan leap ((d.toNat : Nat) : Int)) ≤ ((d.toNat : Nat) : Int)) := h.1
  have hb : ((d.toNat : Nat) : Int) - monYday leap (monthScan leap ((d.toNat : Nat) : Int)) + 1 ≤ 31 ∧
      ((d.toNat : Nat) : Int) < monYday leap (monthScan leap ((d.toNat : Nat) : Int) + 1) :=
    h.2 hside
  rw [Int.toNat_of_nonneg h0] at ha hb
  exact ⟨ha.1, ha.2.1, ha.2.2, hb.1, hb.2⟩

theorem daysBeforeMonthG_eq_fin : ∀ leap : Bool, ∀ m : Fin 13,
    daysBeforeMonthG leap ((m : Nat) : Int) = monYday leap ((m : Nat) : Int) := by
  decide

/-- The source's cumulative table agrees with the sum of the proleptic
Gregorian month lengths on all indices `0..12`. -/
theorem daysBeforeMonthG_eq (leap : Bool) (m : Int) (h0 : 0 ≤ m) (h1 : m ≤ 12) :
    daysBeforeMonthG leap m = monYday leap m := by
  have hn : m.toNat < 13 := by omega
  have h : daysBeforeMonthG leap ((m.toNat : Nat) : Int)
      = monYday leap ((m.toNat : Nat) : Int) :=
    daysBeforeMonthG_eq_fin leap ⟨m.toNat, hn⟩
  rwa [Int.toNat_of_nonneg h0] at h

/-! ### Leap counting: `LEAPS_THRU_END_OF` counts leap years -/

theorem leaps_count_nat : ∀ n : Nat,
    LEAPS_THRU_END_OF (n : Int) =
      (((Finset.range n).filter fun k : Nat => ((k : Int) + 1) % 4 = 0 ∧
        (((k : Int) + 1) % 100 ≠ 0 ∨ ((k : Int) + 1) % 400 = 0)).card : Int) := by
  intro n
  induction n with
  | zero => decide
  | succ n ih =>
    rw [Finset.range_succ, Finset.filter_insert]
    have hstep := LEAPS_step ((n : Int) + 1) (n : Int) (by ring)
    have hcast : ((n + 1 : Nat) : Int) = (n : Int) + 1 := by push_cast; ring
    rw [hcast]
    split_ifs with h
    · rw [Finset.card_insert_of_not_mem (by simp)]
      rw [if_pos h] at hstep
      push_cast
      omega
    · rw [if_neg h] at hstep
      omega

/-! ### Characterization of the conversion functions -/

/-- The overflow branch of `__offtime64` (lines 102-106): return 0, set
`EOVERFLOW`, with only `tm_hour`, `tm_min`, `tm_sec`, `tm_wday` written
(in constructor order: sec, min, hour, mday, mon, year, wday, yday,
isdst, gmtoff, zone). -/
theorem offtime64_eq_overflow (t offset : Int) (tp0 : Tm)
    (hov : (yearState t offset).1 < INT_MIN + 1900 ∨ (yearState t offset).1 > INT_MAX + 1900) :
    __offtime64 t offset (some tp0) =
      (0, some ⟨tmSecOf t offset, tmMinOf t offset, tmHourOf t offset,
        tp0.tm_mday, tp0.tm_mon, tp0.tm_year, tmWdayOf t offset, tp0.tm_yday,
        tp0.tm_isdst, tp0.tm_gmtoff, tp0.tm_zone⟩, some EOVERFLOW) := by
  simp only [__offtime64, if_pos hov]

/-- The success branch of `__offtime64` (lines 108-118): return 1 and the
fully populated record. -/
theorem offtime64_eq_success (t offset : Int) (tp0 : Tm)
    (hov : ¬((yearState t offset).1 < INT_MIN + 1900 ∨ (yearState t offset).1 > INT_MAX + 1900)) :
    __offtime64 t offset (some tp0) =
      (1, some ⟨tmSecOf t offset, tmMinOf t offset, tmHourOf t offset,
        (yearState t offset).2 -
          monYday (__isleap (yearState t offset).1)
            (monthScan (__isleap (yearState t offset).1) (yearState t offset).2) + 1,
        monthScan (__isleap (yearState t offset).1) (yearState t offset).2,
        (yearState t offset).1 - 1900, tmWdayOf t offset, (yearState t offset).2,
        tp0.tm_isdst, tp0.tm_gmtoff, tp0.tm_zone⟩, none) := by
  simp only [__offtime64, if_neg hov]

/-- `fastkst_localtime` on the overflow path forwards the failure and
leaves the timezone fields alone. -/
theorem fastkst_fail (t : Int) (tp0 : Tm)
    (hov : (yearState t kst_offset).1 < INT_MIN + 1900 ∨
      (yearState t kst_offset).1 > INT_MAX + 1900) :
    fastkst_localtime t (some tp0) =
      (0, some ⟨tmSecOf t kst_offset, tmMinOf t kst_offset, tmHourOf t kst_offset,
        tp0.tm_mday, tp0.tm_mon, tp0.tm_year, tmWdayOf t kst_offset, tp0.tm_yday,
        tp0.tm_isdst, tp0.tm_gmtoff, tp0.tm_zone⟩, some EOVERFLOW) := by
  simp only [fastkst_localtime]
  rw [offtime64_eq_overflow t kst_offset tp0 hov]
  rfl

/-- `fastkst_localtime` on the success path stamps the KST timezone
fields. -/
theorem fastkst_success (t : Int) (tp0 : Tm)
    (hov : ¬((yearState t kst_offset).1 < INT_MIN + 1900 ∨
      (yearState t kst_offset).1 > INT_MAX + 1900)) :
    fastkst_localtime t (some tp0) =
      (1, some ⟨tmSecOf t kst_offset, tmMinOf t kst_offset, tmHourOf t kst_offset,
        (yearState t kst_offset).2 -
          monYday (__isleap (yearState t kst_offset).1)
            (monthScan (__isleap (yearState t kst_offset).1) (yearState t kst_offset).2) + 1,
        monthScan (__isleap (yearState t kst_offset).1) (yearState t kst_offset).2,
        (yearState t kst_offset).1 - 1900, tmWdayOf t kst_offset, (yearState t kst_offset).2,
        0, kst_offset, "KST"⟩, none) := by
  simp only [fastkst_localtime]
  rw [offtime64_eq_success t kst_offset tp0 hov]
  rfl

/-! ### The claims -/

/-- C2 (counterexample): the claim asserts that `t = 2147483647` resolves
to local time 03:14:07 (`tm_hour = 3`); the code resolves it to 12:14:07
KST (`tm_hour = 12`), since 2147483647 is 2038-01-19T03:14:07 UTC and KST
is 9 hours ahead. -/
theorem thm_C2_cex :
    (fastkst_localtime 2147483647 (some tmZero)).2.1.map Tm.tm_hour = some 12 ∧
    ¬((12 : Int) = 3) := by
  refine ⟨by decide, by decide⟩

/-- C2 (amended): `t = 2147483647` and `t = 2147483648` both succeed,
resolve to 2038-01-19 12:14:07 and 12:14:08 KST (tm_year = 138, tm_mon =
0, tm_mday = 19, tm_hour = 12, tm_min = 14, tm_sec = 7 and 8), and the two
civil times differ by exactly one second. -/
theorem thm_C2 :
    fastkst_localtime 2147483647 (some tmZero) =
      (1, some ⟨7, 14, 12, 19, 0, 138, 2, 18, 0, 32400, "KST"⟩, none) ∧
    fastkst_localtime 2147483648 (some tmZero) =
      (1, some ⟨8, 14, 12, 19, 0, 138, 2, 18, 0, 32400, "KST"⟩, none) ∧
    recombineSecs ⟨8, 14, 12, 19, 0, 138, 2, 18, 0, 32400, "KST"⟩ -
      recombineSecs ⟨7, 14, 12, 19, 0, 138, 2, 18, 0, 32400, "KST"⟩ = 1 := by
  refine ⟨by decide, by decide, by decide⟩

/-- C4: `LEAPS_THRU_END_OF Y` computes `⌊Y/4⌋ - ⌊Y/100⌋ + ⌊Y/400⌋` with
floor division (`Int.fdiv`) for every `Y`, and for `Y ≥ 1` it equals the
number of leap years (divisible by 4 and either not by 100 or by 400)
among `1..Y`. -/
theorem thm_C4 (Y : Int) :
    LEAPS_THRU_END_OF Y = Y.fdiv 4 - Y.fdiv 100 + Y.fdiv 400 ∧
    (1 ≤ Y → LEAPS_THRU_END_OF Y =
      (((Finset.range Y.toNat).filter fun k : Nat => ((k : Int) + 1) % 4 = 0 ∧
        (((k : Int) + 1) % 100 ≠ 0 ∨ ((k : Int) + 1) % 400 = 0)).card : Int)) := by
  constructor
  · rw [LEAPS_eq, Int.fdiv_eq_ediv _ (by norm_num), Int.fdiv_eq_ediv _ (by norm_num),
      Int.fdiv_eq_ediv _ (by norm_num)]
  · intro h
    have hc := leaps_count_nat Y.toNat
    rwa [Int.toNat_of_nonneg (by omega)] at hc

/-- C4 witness at `Y = 8` (leap years 4 and 8). -/
theorem thm_C4_witness :
    (1 ≤ (8 : Int)) ∧ LEAPS_THRU_END_OF 8 =
      (((Finset.range (8 : Int).toNat).filter fun k : Nat => ((k : Int) + 1) % 4 = 0 ∧
        (((k : Int) + 1) % 100 ≠ 0 ∨ ((k : Int) + 1) % 400 = 0)).card : Int) :=
  ⟨by norm_num, (thm_C4 8).2 (by norm_num)⟩

theorem offtime64_fields (t offset : Int) (tp0 : Tm) :
    (__offtime64 t offset (some tp0)).2.1.map Tm.tm_hour = some (tmHourOf t offset) ∧
    (__offtime64 t offset (some tp0)).2.1.map Tm.tm_min = some (tmMinOf t offset) ∧
    (__offtime64 t offset (some tp0)).2.1.map Tm.tm_sec = some (tmSecOf t offset) ∧
    (__offtime64 t offset (some tp0)).2.1.map Tm.tm_wday = some (tmWdayOf t offset) := by
  by_cases hov : ((yearState t offset).1 < INT_MIN + 1900 ∨ (yearState t offset).1 > INT_MAX + 1900)
  · rw [offtime64_eq_overflow t offset tp0 hov]
    exact ⟨rfl, rfl, rfl, rfl⟩
  · rw [offtime64_eq_success t offset tp0 hov]
    exact ⟨rfl, rfl, rfl, rfl⟩

/-- C6: for every `t` and every offset of magnitude below one day, the
splitter satisfies `0 ≤ rem < 86400` and `days*86400 + rem = t + offset`,
each renormalization loop runs at most twice, and the stored fields are
`rem/3600`, `(rem%3600)/60`, `rem%60` (C truncating division). -/
theorem thm_C6 (t offset : Int) (tp0 : Tm) (holo : -86400 < offset) (hohi : offset < 86400) :
    0 ≤ splitRem t offset ∧ splitRem t offset < 86400 ∧
    86400 * splitDays t offset + splitRem t offset = t + offset ∧
    (splitDR t offset).2.1 ≤ 2 ∧ (splitDR t offset).2.2 ≤ 2 ∧
    (__offtime64 t offset (some tp0)).2.1.map Tm.tm_hour
      = some ((splitRem t offset).tdiv 3600) ∧
    (__offtime64 t offset (some tp0)).2.1.map Tm.tm_min
      = some (((splitRem t offset).tmod 3600).tdiv 60) ∧
    (__offtime64 t offset (some tp0)).2.1.map Tm.tm_sec
      = some ((splitRem t offset).tmod 60) := by
  obtain ⟨h1, h2, h3, h4, h5⟩ := splitDR_spec t offset holo hohi
  obtain ⟨f1, f2, f3, _⟩ := offtime64_fields t offset tp0
  refine ⟨h2, h3, h1, h4, h5, ?_, ?_, ?_⟩
  · rw [f1]; rfl
  · rw [f2]; rfl
  · rw [f3]
    rw [show tmSecOf t offset = ((splitRem t offset).tmod 3600).tmod 60 from rfl,
      tmod3600_tmod60]

/-- C6 witness at `t = 123456789`, `offset = +32400`. -/
theorem thm_C6_witness :
    (-86400 < (32400 : Int)) ∧ ((32400 : Int) < 86400) ∧
    86400 * splitDays 123456789 32400 + splitRem 123456789 32400 = 123456789 + 32400 ∧
    (__offtime64 123456789 32400 (some tmZero)).2.1.map Tm.tm_hour
      = some ((splitRem 123456789 32400).tdiv 3600) :=
  ⟨by norm_num, by norm_num, (thm_C6 123456789 32400 tmZero (by norm_num) (by norm_num)).2.2.1,
    (thm_C6 123456789 32400 tmZero (by norm_num) (by norm_num)).2.2.2.2.2.1⟩

/-- C7: `t = -2209021200` succeeds and resolves to 1900-01-01 00:00:00
KST (tm_year = 0, tm_mon = 0, tm_mday = 1, tm_hour = tm_min = tm_sec = 0;
the weekday is Monday and the day-of-year 0). -/
theorem thm_C7 :
    fastkst_localtime (-2209021200) (some tmZero) =
      (1, some ⟨0, 0, 0, 1, 0, 0, 1, 0, 0, 32400, "KST"⟩, none) := by
  decide

/-- C8: calling either entry point with a NULL record fails with
`EINVAL`; the plain entry sets `errno`, the safe wrapper delivers the code
through `err_code` exactly when that pointer is non-NULL, and nothing is
written through the output pointer. -/
theorem thm_C8 (t : Int) :
    fastkst_localtime t none = (0, none, some EINVAL) ∧
    fastkst_localtime_safe t none true = (0, none, some EINVAL) ∧
    fastkst_localtime_safe t none false = (0, none, none) :=
  ⟨rfl, rfl, rfl⟩

/-- C9 (counterexample): with the common-year table and day-of-year
`d = 365` (allowed by the claim's bound `d < 366`), the scan stops at
index 11 but the day-of-month is `365 - 334 + 1 = 32`, outside the claimed
range `1..31`. -/
theorem thm_C9_cex :
    monthScan false 365 = 11 ∧
    (365 : Int) - monYday false (monthScan false 365) + 1 = 32 ∧
    ¬((365 : Int) - monYday false (monthScan false 365) + 1 ≤ 31) := by
  refine ⟨by decide, by decide, by decide⟩

/-- C9 (amended): for `0 ≤ d < 366` and either leap classification the
backward scan terminates at an index in `[0, 11]` (it can never step past
index 0 because the table's entry 0 is `0 ≤ d`) and the day-of-month is at
least 1; the upper bound `tm_mday ≤ 31` additionally holds whenever `d` is
below the classification's year length (`366` leap, `365` common) — the
only reachable inputs — but fails for `d = 365` with the common-year
table. -/
theorem thm_C9 (leap : Bool) (d : Int) (h0 : 0 ≤ d) (h1 : d < 366) :
    (0 ≤ monthScan leap d ∧ monthScan leap d ≤ 11 ∧
      1 ≤ d - monYday leap (monthScan leap d) + 1) ∧
    (d < (if leap then (366 : Int) else 365) →
      d - monYday leap (monthScan leap d) + 1 ≤ 31) := by
  have hs := monthScan_safe leap d h0 h1
  refine ⟨⟨hs.1, hs.2.1, by have := hs.2.2; omega⟩, fun h2 => ?_⟩
  exact (monthScan_bounds leap d h0 h2).2.2.2.1

/-- C9 witness at `leap = true`, `d = 100`. -/
theorem thm_C9_witness :
    (0 ≤ (100 : Int)) ∧ ((100 : Int) < 366) ∧
    ((0 ≤ monthScan true 100 ∧ monthScan true 100 ≤ 11 ∧
      1 ≤ (100 : Int) - monYday true (monthScan true 100) + 1) ∧
    ((100 : Int) < (if true then (366 : Int) else 365) →
      (100 : Int) - monYday true (monthScan true 100) + 1 ≤ 31)) :=
  ⟨by norm_num, by norm_num, thm_C9 true 100 (by norm_num) (by norm_num)⟩

/-- C1: whenever `fastkst_localtime` succeeds (returns 1) on a 64-bit
epoch-seconds input, recombining the produced record — proleptic-Gregorian
day number of `(tm_year+1900, tm_mon, tm_mday)` times 86400, plus
`tm_hour*3600 + tm_min*60 + tm_sec`, minus the fixed offset 32400 — gives
back exactly `t`. -/
theorem thm_C1 (t : Int) (tp0 tm : Tm)
    (hlo : -9223372036854775808 ≤ t) (hhi : t < 9223372036854775808)
    (hret : (fastkst_localtime t (some tp0)).1 = 1)
    (htm : (fastkst_localtime t (some tp0)).2.1 = some tm) :
    recombineSecs tm = t := by
  have hk : kst_offset = 32400 := rfl
  obtain ⟨hsum, hr0, hr1, -, -⟩ :=
    splitDR_spec t kst_offset (by rw [hk]; norm_num) (by rw [hk]; norm_num)
  have hdb : (splitDays t kst_offset).natAbs ≤ 107000000000000 := by omega
  have hcv := yearLoopS_converged 1970 (splitDays t kst_offset) hdb
  have hconv : yearConverged (yearState t kst_offset) := hcv.1
  have hcb : 0 ≤ (yearState t kst_offset).2 ∧
      (yearState t kst_offset).2 <
        (if __isleap (yearState t kst_offset).1 then (366 : Int) else 365) :=
    converged_bounds hconv
  have hanc : 365 * (yearState t kst_offset).1 +
      LEAPS_THRU_END_OF ((yearState t kst_offset).1 - 1) + (yearState t kst_offset).2
      = 365 * 1970 + LEAPS_THRU_END_OF (1970 - 1) + splitDays t kst_offset :=
    yearLoopS_anchor 20 1970 (splitDays t kst_offset)
  rw [show (1970 : Int) - 1 = 1969 from by norm_num] at hanc
  by_cases hov : ((yearState t kst_offset).1 < INT_MIN + 1900 ∨
      (yearState t kst_offset).1 > INT_MAX + 1900)
  · rw [fastkst_fail t tp0 hov] at hret
    simp at hret
  · rw [fastkst_success t tp0 hov] at htm
    simp only [Option.some.injEq] at htm
    subst htm
    obtain ⟨hmon0, hmon11, hmole, -, -⟩ :=
      monthScan_bounds (__isleap (yearState t kst_offset).1) (yearState t kst_offset).2
        hcb.1 hcb.2
    have hms := hms_recombine t kst_offset (by rw [hk]; norm_num) (by rw [hk]; norm_num)
    simp only [recombineSecs, daysFromCivil]
    rw [show (yearState t kst_offset).1 - 1900 + 1900 = (yearState t kst_offset).1
      from by ring]
    rw [isLeapG_eq, leapCountFloor_eq, leapCountFloor_eq]
    rw [daysBeforeMonthG_eq _ _ hmon0 (by omega)]
    omega

/-- C1 witness at `t = 0` (epoch, 1970-01-01 09:00:00 KST). -/
theorem thm_C1_witness :
    (fastkst_localtime 0 (some tmZero)).1 = 1 ∧
    (fastkst_localtime 0 (some tmZero)).2.1
      = some ⟨0, 0, 9, 1, 0, 70, 4, 0, 0, 32400, "KST"⟩ ∧
    recombineSecs ⟨0, 0, 9, 1, 0, 70, 4, 0, 0, 32400, "KST"⟩ = 0 :=
  ⟨by decide, by decide,
    thm_C1 0 tmZero ⟨0, 0, 9, 1, 0, 70, 4, 0, 0, 32400, "KST"⟩ (by decide) (by decide)
      (by decide) (by decide)⟩

/-- C3: on the 64-bit input range with a non-NULL record, the conversion
fails with `EOVERFLOW` exactly when the resolved year lies outside
`[INT_MIN + 1900, INT_MAX + 1900]`; inside that range it succeeds and
stores `tm_year = y - 1900`.  The loop's year is the mathematically
resolved one: the instant's day number lies between Jan 1 of `y` and
Jan 1 of `y + 1` in the proleptic Gregorian day numbering. -/
theorem thm_C3 (t : Int) (tp0 : Tm)
    (hlo : -9223372036854775808 ≤ t) (hhi : t < 9223372036854775808) :
    (((fastkst_localtime t (some tp0)).1 = 0 ∧
        (fastkst_localtime t (some tp0)).2.2 = some EOVERFLOW) ↔
      (resolvedYear t < INT_MIN + 1900 ∨ resolvedYear t > INT_MAX + 1900)) ∧
    (INT_MIN + 1900 ≤ resolvedYear t ∧ resolvedYear t ≤ INT_MAX + 1900 →
      (fastkst_localtime t (some tp0)).1 = 1 ∧
      (fastkst_localtime t (some tp0)).2.1.map Tm.tm_year
        = some (resolvedYear t - 1900)) ∧
    daysFromCivil (resolvedYear t) 0 1 ≤ (t + 32400) / 86400 ∧
    (t + 32400) / 86400 < daysFromCivil (resolvedYear t + 1) 0 1 := by
  have hk : kst_offset = 32400 := rfl
  have hry : resolvedYear t = (yearState t kst_offset).1 := rfl
  obtain ⟨hsum, hr0, hr1, -, -⟩ :=
    splitDR_spec t kst_offset (by rw [hk]; norm_num) (by rw [hk]; norm_num)
  have hdb : (splitDays t kst_offset).natAbs ≤ 107000000000000 := by omega
  have hconv : yearConverged (yearState t kst_offset) :=
    (yearLoopS_converged 1970 (splitDays t kst_offset) hdb).1
  have hcb : 0 ≤ (yearState t kst_offset).2 ∧
      (yearState t kst_offset).2 <
        (if __isleap (yearState t kst_offset).1 then (366 : Int) else 365) :=
    converged_bounds hconv
  have hanc : 365 * (yearState t kst_offset).1 +
      LEAPS_THRU_END_OF ((yearState t kst_offset).1 - 1) + (yearState t kst_offset).2
      = 365 * 1970 + LEAPS_THRU_END_OF (1970 - 1) + splitDays t kst_offset :=
    yearLoopS_anchor 20 1970 (splitDays t kst_offset)
  rw [show (1970 : Int) - 1 = 1969 from by norm_num] at hanc
  have hed : splitDays t kst_offset = (t + 32400) / 86400 := by
    rw [(splitDR_eq_ediv t kst_offset (by rw [hk]; norm_num) (by rw [hk]; norm_num)).1, hk]
  rw [← hry] at hcb hanc
  have hthird : daysFromCivil (resolvedYear t) 0 1 ≤ (t + 32400) / 86400 ∧
      (t + 32400) / 86400 < daysFromCivil (resolvedYear t + 1) 0 1 := by
    have hstep := LEAPS_step (resolvedYear t) (resolvedYear t - 1) (by ring)
    have hdc : daysFromCivil (resolvedYear t) 0 1 = 365 * (resolvedYear t - 1970) +
        (leapCountFloor (resolvedYear t - 1) - leapCountFloor 1969) := by
      simp only [daysFromCivil]
      rw [show daysBeforeMonthG (isLeapG (resolvedYear t)) 0 = 0 from rfl]
      ring
    have hdc2 : daysFromCivil (resolvedYear t + 1) 0 1
        = 365 * (resolvedYear t + 1 - 1970) +
          (leapCountFloor (resolvedYear t + 1 - 1) - leapCountFloor 1969) := by
      simp only [daysFromCivil]
      rw [show daysBeforeMonthG (isLeapG (resolvedYear t + 1)) 0 = 0 from rfl]
      ring
    rw [show resolvedYear t + 1 - 1 = resolvedYear t from by ring] at hdc2
    rw [hdc, hdc2]
    simp only [leapCountFloor_eq]
    rw [← hed]
    by_cases hl : __isleap (resolvedYear t) = true
    · rw [if_pos hl] at hcb
      rw [if_pos ((isleap_iff _).mp hl)] at hstep
      constructor <;> omega
    · rw [if_neg hl] at hcb
      rw [if_neg (fun hq => hl ((isleap_iff _).mpr hq))] at hstep
      constructor <;> omega
  refine ⟨⟨?_, ?_⟩, ?_, hthird⟩
  · rintro ⟨hz, -⟩
    by_cases hov : ((yearState t kst_offset).1 < INT_MIN + 1900 ∨
        (yearState t kst_offset).1 > INT_MAX + 1900)
    · rw [hry]; exact hov
    · rw [fastkst_success t tp0 hov] at hz
      simp at hz
  · intro hov2
    have hov : ((yearState t kst_offset).1 < INT_MIN + 1900 ∨
        (yearState t kst_offset).1 > INT_MAX + 1900) := by rw [← hry]; exact hov2
    rw [fastkst_fail t tp0 hov]
    exact ⟨rfl, rfl⟩
  · rintro ⟨hin1, hin2⟩
    have hov : ¬((yearState t kst_offset).1 < INT_MIN + 1900 ∨
        (yearState t kst_offset).1 > INT_MAX + 1900) := by
      rw [← hry]
      exact not_or.mpr ⟨by omega, by omega⟩
    rw [fastkst_success t tp0 hov]
    exact ⟨rfl, rfl⟩

/-- C3 witness at `t = 0` (hypotheses hold; the resolved year 1970
contains the epoch day 0). -/
theorem thm_C3_witness :
    (-9223372036854775808 ≤ (0 : Int)) ∧ ((0 : Int) < 9223372036854775808) ∧
    daysFromCivil (resolvedYear 0) 0 1 ≤ ((0 : Int) + 32400) / 86400 ∧
    ((0 : Int) + 32400) / 86400 < daysFromCivil (resolvedYear 0 + 1) 0 1 :=
  ⟨by decide, by decide, (thm_C3 0 tmZero (by decide) (by decide)).2.2⟩

/-- C5 (counterexample): the claim bounds the loop body at 2 executions
for every day count reachable from a 64-bit input, but `t = 2^45 =
35184372088832` (a valid `time_t`) drives the loop through 3 iterations. -/
theorem thm_C5_cex :
    yearLoopC 20 1970 (splitDays 35184372088832 kst_offset) = 3 ∧ ¬((3 : Nat) ≤ 2) := by
  refine ⟨by decide, by decide⟩

/-- C5 (amended): for every day count reachable from a 64-bit
epoch-seconds input, the year loop terminates after at most 6 body
executions (not 2 as claimed), and on exit `0 ≤ days < (366 if leap y
else 365)`, the remaining count being the zero-based day-of-year of the
resolved year (the loop preserves the absolute day anchor). -/
theorem thm_C5 (t : Int)
    (hlo : -9223372036854775808 ≤ t) (hhi : t < 9223372036854775808) :
    yearLoopC 20 1970 (splitDays t kst_offset) ≤ 6 ∧
    yearConverged (yearState t kst_offset) ∧
    0 ≤ (yearState t kst_offset).2 ∧
    (yearState t kst_offset).2 <
      (if __isleap (yearState t kst_offset).1 then (366 : Int) else 365) ∧
    365 * (yearState t kst_offset).1 +
      LEAPS_THRU_END_OF ((yearState t kst_offset).1 - 1) + (yearState t kst_offset).2
      = 365 * 1970 + LEAPS_THRU_END_OF 1969 + splitDays t kst_offset := by
  have hk : kst_offset = 32400 := rfl
  obtain ⟨hsum, hr0, hr1, -, -⟩ :=
    splitDR_spec t kst_offset (by rw [hk]; norm_num) (by rw [hk]; norm_num)
  have hdb : (splitDays t kst_offset).natAbs ≤ 107000000000000 := by omega
  have hcv := yearLoopS_converged 1970 (splitDays t kst_offset) hdb
  have hconv : yearConverged (yearState t kst_offset) := hcv.1
  have hcb : 0 ≤ (yearState t kst_offset).2 ∧
      (yearState t kst_offset).2 <
        (if __isleap (yearState t kst_offset).1 then (366 : Int) else 365) :=
    converged_bounds hconv
  have hanc : 365 * (yearState t kst_offset).1 +
      LEAPS_THRU_END_OF ((yearState t kst_offset).1 - 1) + (yearState t kst_offset).2
      = 365 * 1970 + LEAPS_THRU_END_OF (1970 - 1) + splitDays t kst_offset :=
    yearLoopS_anchor 20 1970 (splitDays t kst_offset)
  rw [show (1970 : Int) - 1 = 1969 from by norm_num] at hanc
  exact ⟨hcv.2.2, hconv, hcb.1, hcb.2, hanc⟩

/-- C5 witness at `t = 0`. -/
theorem thm_C5_witness :
    (-9223372036854775808 ≤ (0 : Int)) ∧ ((0 : Int) < 9223372036854775808) ∧
    yearLoopC 20 1970 (splitDays 0 kst_offset) ≤ 6 :=
  ⟨by decide, by decide, (thm_C5 0 (by decide) (by decide)).1⟩

/-- C10: on every overflow failure of `fastkst_localtime` with a non-NULL
record, `tm_hour`, `tm_min`, `tm_sec`, `tm_wday` were already overwritten
with the computed values, while `tm_year`, `tm_yday`, `tm_mon`, `tm_mday`,
`tm_gmtoff`, `tm_zone`, `tm_isdst` keep the caller's previous contents:
the record is partially populated. -/
theorem thm_C10 (t : Int) (tp0 tm : Tm) (e : Int)
    (h : fastkst_localtime t (some tp0) = (0, some tm, some e)) :
    e = EOVERFLOW ∧
    tm.tm_hour = tmHourOf t kst_offset ∧ tm.tm_min = tmMinOf t kst_offset ∧
    tm.tm_sec = tmSecOf t kst_offset ∧ tm.tm_wday = tmWdayOf t kst_offset ∧
    tm.tm_year = tp0.tm_year ∧ tm.tm_yday = tp0.tm_yday ∧ tm.tm_mon = tp0.tm_mon ∧
    tm.tm_mday = tp0.tm_mday ∧ tm.tm_gmtoff = tp0.tm_gmtoff ∧
    tm.tm_zone = tp0.tm_zone ∧ tm.tm_isdst = tp0.tm_isdst := by
  by_cases hov : ((yearState t kst_offset).1 < INT_MIN + 1900 ∨
      (yearState t kst_offset).1 > INT_MAX + 1900)
  · rw [fastkst_fail t tp0 hov] at h
    simp only [Prod.mk.injEq, Option.some.injEq] at h
    obtain ⟨-, h2, h3⟩ := h
    subst h2
    subst h3
    exact ⟨rfl, rfl, rfl, rfl, rfl, rfl, rfl, rfl, rfl, rfl, rfl, rfl⟩
  · rw [fastkst_success t tp0 hov] at h
    simp at h

/-- C10 witness: `t = 9000000000000000000` overflows the year field; the
record pre-filled with sevens keeps its calendar fields and gains the
computed time-of-day and weekday. -/
theorem thm_C10_witness :
    fastkst_localtime 9000000000000000000 (some ⟨7, 7, 7, 7, 7, 7, 7, 7, 7, 7, "x"⟩) =
      (0, some ⟨0, 0, 1, 7, 7, 7, 0, 7, 7, 7, "x"⟩, some 75) ∧
    (75 : Int) = EOVERFLOW :=
  ⟨by decide,
    (thm_C10 9000000000000000000 ⟨7, 7, 7, 7, 7, 7, 7, 7, 7, 7, "x"⟩
      ⟨0, 0, 1, 7, 7, 7, 0, 7, 7, 7, "x"⟩ 75 (by decide)).1⟩
